import Mathlib

/-!
# Verification of the todo task-store module

A shallow embedding of `src/todo.py`: a personal task tracker persisting a
JSON list of task records to a single file.  Tasks are Python dicts whose
fields may be absent (`t.get(...)`), modelled as a record of `Option` fields.
The filesystem is a map from paths to file contents; a file either failed to
parse as JSON (`malformed`) or holds a JSON document.  `save_tasks` writes the
JSON encoding of the collection; `load_tasks` decodes it back.  Printing is
modelled by returning the printed lines; the clock (`datetime.utcnow()`) is
an explicit string parameter.
-/

set_option autoImplicit false

namespace Todo

/-- A task record: a JSON object as read from the tasks file.  Fields may be
absent, as Python code accesses them with `t.get(...)`. -/
structure Task where
  id : Option Int
  title : Option String
  description : Option String
  created_at : Option String
  done : Option Bool
  deriving DecidableEq, Repr

/-- JSON values, the serialization target of `json.dump` / source of
`json.load`. -/
inductive Json where
  | jnull
  | jbool (b : Bool)
  | jint (n : Int)
  | jstr (s : String)
  | jarr (xs : List Json)
  | jobj (kvs : List (String × Json))

/-- A field of a Python dict: present fields contribute one key/value pair,
absent fields contribute nothing. -/
def optField (k : String) : Option Json → List (String × Json)
  | some j => [(k, j)]
  | none => []

/-- The JSON object `json.dump` writes for one task dict, keys in the
insertion order used by `add_task` (`id`, `title`, `description`,
`created_at`, `done`). -/
def encodeTask (t : Task) : Json :=
  .jobj (optField "id" (t.id.map .jint)
    ++ optField "title" (t.title.map .jstr)
    ++ optField "description" (t.description.map .jstr)
    ++ optField "created_at" (t.created_at.map .jstr)
    ++ optField "done" (t.done.map .jbool))

/-- The JSON document for a task collection: a top-level array. -/
def encodeTasks (ts : List Task) : Json :=
  .jarr (ts.map encodeTask)

/-- Read an optional integer field of a JSON object: absent is fine (`none`),
present with the right type yields the value, anything else is not a task
record. -/
def getIntField (kvs : List (String × Json)) (k : String) : Option (Option Int) :=
  match kvs.lookup k with
  | none => some none
  | some (.jint n) => some (some n)
  | some _ => none

/-- Read an optional string field of a JSON object. -/
def getStrField (kvs : List (String × Json)) (k : String) : Option (Option String) :=
  match kvs.lookup k with
  | none => some none
  | some (.jstr s) => some (some s)
  | some _ => none

/-- Read an optional boolean field of a JSON object. -/
def getBoolField (kvs : List (String × Json)) (k : String) : Option (Option Bool) :=
  match kvs.lookup k with
  | none => some none
  | some (.jbool b) => some (some b)
  | some _ => none

/-- Decode one task record from a JSON value. -/
def decodeTask : Json → Option Task
  | .jobj kvs => do
    let i ← getIntField kvs "id"
    let ti ← getStrField kvs "title"
    let d ← getStrField kvs "description"
    let c ← getStrField kvs "created_at"
    let dn ← getBoolField kvs "done"
    pure ⟨i, ti, d, c, dn⟩
  | _ => none

/-- Decode a task collection from a JSON document. -/
def decodeTasks : Json → Option (List Task)
  | .jarr xs => xs.mapM decodeTask
  | _ => none

/-- Contents of a file on disk: either text that `json.load` rejects with
`JSONDecodeError`, or a JSON document. -/
inductive FileContent where
  | malformed
  | doc (j : Json)

/-- The world the operations act on: which paths are writable (opening an
unwritable path for writing raises), and what each existing path holds
(`none` = the path does not exist). -/
structure World where
  writable : String → Bool
  file : String → Option FileContent

/--
Embedding of `load_tasks(path)`.  Source:
missing file returns `[]`; `json.JSONDecodeError` is caught and returns `[]`;
otherwise the parsed document is returned as is.  A well-formed JSON document
that is not a list of task records is outside the operations' domain (the
Python code would return a value the other operations crash on); for totality
it is mapped to `[]` here, and no theorem below depends on that branch.
-/
def load_tasks (wd : World) (path : String) : List Task :=
  match wd.file path with
  | none => []
  | some .malformed => []
  | some (.doc j) => (decodeTasks j).getD []

/--
Embedding of `save_tasks(tasks, path)`.  Source: `open(path, "w")` then
`json.dump(tasks, f, indent=2, ensure_ascii=False)` with no exception
handling, so an unwritable destination raises to the caller.
-/
def save_tasks (tasks : List Task) (path : String) (wd : World) : Except String World :=
  if wd.writable path then
    .ok { wd with
      file := fun p => if p = path then some (.doc (encodeTasks tasks)) else wd.file p }
  else
    .error ("cannot open for writing: " ++ path)

/-- Python's `max((t.get("id", 0) for t in tasks), default=0)`: the maximum of
a list, or the default when the list is empty. -/
def maxDefault : List Int → Int → Int
  | [], d => d
  | x :: xs, _ => xs.foldl max x

/-- The id `add_task` assigns:
`max((t.get("id", 0) for t in tasks), default=0) + 1`. -/
def nextId (tasks : List Task) : Int :=
  maxDefault (tasks.map (fun t => t.id.getD 0)) 0 + 1

/-- Python's `str` on an optional int: `str(None)` is `"None"`. -/
def reprOptInt : Option Int → String
  | some n => toString n
  | none => "None"

/-- Python's `str` on an optional string. -/
def reprOptStr : Option String → String
  | some s => s
  | none => "None"

/-- The line `add_task` prints: `f"Added task {task['id']}: {task['title']}"`. -/
def addedMsg (i : Int) (title : String) : String :=
  "Added task " ++ toString i ++ ": " ++ title

/--
Embedding of `add_task(title, desc, path)`.  Source: load, build the dict with the next id,
the given title and description, `datetime.utcnow().isoformat() + "Z"` and
`done=False`, append, save, print.  `now` stands for the clock reading
`datetime.utcnow().isoformat()`.
-/
def add_task (title desc now path : String) (wd : World) :
    Except String (World × List String) := do
  let tasks := load_tasks wd path
  let tid := nextId tasks
  let task : Task :=
    { id := some tid
      title := some title
      description := some desc
      created_at := some (now ++ "Z")
      done := some false }
  let tasks := tasks ++ [task]
  let wd ← save_tasks tasks path wd
  pure (wd, [addedMsg tid title])

/-- The completion marker: `"✓" if t.get("done") else " "` (Python truthiness
of `None`/`False`/`True`). -/
def statusMark (t : Task) : String :=
  if t.done.getD false then "✓" else " "

/-- Everything before the description in a task's listing line. -/
def renderHead (t : Task) : String :=
  "[" ++ statusMark t ++ "] " ++ reprOptInt t.id ++ ": " ++ reprOptStr t.title

/-- One listing line:
`f"[{status}] {t.get('id')}: {t.get('title')} - {t.get('description', '')}"`. -/
def renderTask (t : Task) : String :=
  renderHead t ++ " - " ++ t.description.getD ""

/-- The message `list_tasks` prints when the collection is empty. -/
def noTasksMsg : String := "No tasks found."

/-- Embedding of `list_tasks(path)`: load and print; never saves, so the world is
returned unchanged. -/
def list_tasks (wd : World) (path : String) : World × List String :=
  let tasks := load_tasks wd path
  if tasks.isEmpty then (wd, [noTasksMsg])
  else (wd, tasks.map renderTask)

/-- The success line of `complete_task`. -/
def completeMsg (i : Int) : String :=
  "Marked task " ++ toString i ++ " complete."

/-- The failure line of `complete_task`. -/
def notFoundMsg (i : Int) : String :=
  "No task found with id " ++ toString i ++ "."

/-- The loop of `complete_task`: walk the list, and on the first `t` with
`t.get("id") == task_id` set `t["done"] = True` in place and stop; `none`
when no task matches.  `t.get("id")` is `None` when the field is absent, and
`None == task_id` is false. -/
def markFirst (task_id : Int) : List Task → Option (List Task)
  | [] => none
  | t :: rest =>
    if t.id = some task_id then some ({ t with done := some true } :: rest)
    else (markFirst task_id rest).map (t :: ·)

/--
Embedding of `complete_task(task_id, path)`.  Source: load, scan for the first task whose
`id` equals `task_id` (by `==`, value equality); if found, mark it done, save
and print the success line; otherwise print the not-found line without
saving.
-/
def complete_task (task_id : Int) (path : String) (wd : World) :
    Except String (World × List String) :=
  let tasks := load_tasks wd path
  match markFirst task_id tasks with
  | some tasks2 => do
    let wd ← save_tasks tasks2 path wd
    pure (wd, [completeMsg task_id])
  | none => .ok (wd, [notFoundMsg task_id])

/-- Run a sequence of `add_task` calls; each element supplies the title, the
description and the clock reading of one call. -/
def runAdds (args : List (String × String × String)) (path : String) (wd : World) :
    Except String World :=
  match args with
  | [] => .ok wd
  | (t, d, n) :: rest => do
    let r ← add_task t d n path wd
    runAdds rest path r.1

/-- The world after a successful write of `ts` to `path`. -/
def World.store (wd : World) (path : String) (ts : List Task) : World :=
  { wd with file := fun p => if p = path then some (.doc (encodeTasks ts)) else wd.file p }

/-- The task dict `add_task` builds before appending. -/
def newTask (ts : List Task) (title desc now : String) : Task :=
  { id := some (nextId ts)
    title := some title
    description := some desc
    created_at := some (now ++ "Z")
    done := some false }

/-- The ids `1, 2, …, m` a sequence of `m` adds from an empty store assigns. -/
def oneTo (m : Nat) : List Int :=
  (List.range m).map (fun k : Nat => (k : Int) + 1)

/-! ## Concrete fixtures used by the witnesses -/

/-- An empty writable store: no file exists yet. -/
def demoWorld : World :=
  { writable := fun _ => true, file := fun _ => none }

/-- A store whose destination is not writable. -/
def lockedWorld : World :=
  { writable := fun _ => false, file := fun _ => none }

/-- A collection with non-ASCII text in a title and a description. -/
def demoTasks : List Task :=
  [{ id := some 1, title := some "Buy café ☕", description := some "Milk, bread, eggs",
     created_at := some "2026-02-09T10:00:00Z", done := some false },
   { id := some 2, title := some "Fix bug", description := some "Descripción: café",
     created_at := some "2026-02-09T11:00:00Z", done := some true }]

/-- A store whose file holds text that is not valid JSON. -/
def corruptWorld : World :=
  { writable := fun _ => true
    file := fun p => if p = "tasks.json" then some .malformed else none }

/-- A store whose file holds the serialized `demoTasks`. -/
def storedWorld : World :=
  { writable := fun _ => true
    file := fun p =>
      if p = "tasks.json" then some (.doc (encodeTasks demoTasks)) else none }

/-- A stored task whose id, 300, lies outside any runtime integer-caching
range. -/
def bigIdTask : Task :=
  { id := some 300, title := some "Large ID task", description := some "",
    created_at := some "2026-02-09T10:00:00Z", done := some false }

/-- A writable store holding just `bigIdTask`. -/
def bigIdWorld : World :=
  { writable := fun _ => true
    file := fun p =>
      if p = "tasks.json" then some (.doc (encodeTasks [bigIdTask])) else none }

/-- A task with id 1. -/
def dupA : Task :=
  { id := some 1, title := some "one", description := some "",
    created_at := some "2026-01-01T00:00:00Z", done := some false }

/-- The first of two tasks sharing the id 2. -/
def dupB : Task :=
  { id := some 2, title := some "first two", description := some "a",
    created_at := some "2026-01-01T00:01:00Z", done := some false }

/-- The second of two tasks sharing the id 2. -/
def dupC : Task :=
  { id := some 2, title := some "second two", description := some "b",
    created_at := some "2026-01-01T00:02:00Z", done := some false }

/-- A store holding three tasks in which the id 2 occurs twice. -/
def dupWorld : World :=
  { writable := fun _ => true
    file := fun p =>
      if p = "tasks.json" then some (.doc (encodeTasks [dupA, dupB, dupC]))
      else none }

/-- A store holding one done and one not-done task, one with an empty
description. -/
def listWorld : World :=
  { writable := fun _ => true
    file := fun p =>
      if p = "tasks.json" then
        some (.doc (encodeTasks
          [{ id := some 1, title := some "Buy groceries", description := some "",
             created_at := some "2026-02-09T10:00:00Z", done := some true },
           { id := some 2, title := some "Fix bug", description := some "later",
             created_at := some "2026-02-09T11:00:00Z", done := some false }]))
      else none }

/-- A store in which one record has no `id` field at all and another has
id 3. -/
def gapWorld : World :=
  { writable := fun _ => true
    file := fun p =>
      if p = "tasks.json" then
        some (.doc (encodeTasks
          [{ id := none, title := some "legacy", description := some "",
             created_at := none, done := some false },
           { id := some 3, title := some "three", description := some "",
             created_at := some "2026-02-09T10:00:00Z", done := some false }]))
      else none }

/-! ## Round trip of the persisted encoding -/

theorem decodeTask_encodeTask (t : Task) : decodeTask (encodeTask t) = some t := by
  obtain ⟨i, ti, d, c, dn⟩ := t
  cases i <;> cases ti <;> cases d <;> cases c <;> cases dn <;> rfl

theorem decodeTasks_encodeTasks (ts : List Task) :
    decodeTasks (encodeTasks ts) = some ts := by
  induction ts with
  | nil => rfl
  | cons t ts ih =>
    simp only [decodeTasks, encodeTasks, List.map_cons] at ih ⊢
    rw [List.mapM_cons, decodeTask_encodeTask, ih]
    rfl

/-! ## Basic facts about the world and save/load -/

theorem save_tasks_of_writable {wd : World} {path : String} (ts : List Task)
    (hW : wd.writable path = true) :
    save_tasks ts path wd = .ok (wd.store path ts) := by
  simp [save_tasks, hW, World.store]

theorem save_tasks_of_unwritable {wd : World} {path : String} (ts : List Task)
    (hW : wd.writable path = false) :
    save_tasks ts path wd = .error ("cannot open for writing: " ++ path) := by
  simp [save_tasks, hW]

@[simp] theorem store_writable (wd : World) (path : String) (ts : List Task) :
    (wd.store path ts).writable = wd.writable := rfl

@[simp] theorem store_file_same (wd : World) (path : String) (ts : List Task) :
    (wd.store path ts).file path = some (.doc (encodeTasks ts)) := by
  simp [World.store]

theorem store_file_other (wd : World) (path : String) (ts : List Task)
    {q : String} (hq : q ≠ path) : (wd.store path ts).file q = wd.file q := by
  simp [World.store, hq]

@[simp] theorem load_store (wd : World) (path : String) (ts : List Task) :
    load_tasks (wd.store path ts) path = ts := by
  simp [load_tasks, World.store, decodeTasks_encodeTasks]

/-! ## The completion scan -/

theorem markFirst_eq_none_iff (i : Int) (ts : List Task) :
    markFirst i ts = none ↔ ∀ t ∈ ts, t.id ≠ some i := by
  induction ts with
  | nil => simp [markFirst]
  | cons t ts ih =>
    by_cases h : t.id = some i <;>
      simp [markFirst, h, ih, Option.map_eq_none']

theorem markFirst_isSome_iff (i : Int) (ts : List Task) :
    (markFirst i ts).isSome ↔ ∃ t ∈ ts, t.id = some i := by
  rw [Option.isSome_iff_ne_none, ne_eq, markFirst_eq_none_iff]
  push_neg
  rfl

theorem markFirst_append (i : Int) (pre : List Task) (t : Task) (post : List Task)
    (hpre : ∀ u ∈ pre, u.id ≠ some i) (ht : t.id = some i) :
    markFirst i (pre ++ t :: post)
      = some (pre ++ { t with done := some true } :: post) := by
  induction pre with
  | nil => simp [markFirst, ht]
  | cons u pre ih =>
    have hu : u.id ≠ some i := hpre u (by simp)
    simp [List.cons_append, markFirst, hu,
      ih (fun v hv => hpre v (by simp [hv]))]

theorem markFirst_mem_done (i : Int) :
    ∀ (ts ts2 : List Task), markFirst i ts = some ts2 →
      ∃ t ∈ ts2, t.id = some i ∧ t.done = some true := by
  intro ts
  induction ts with
  | nil => intro ts2 h; simp [markFirst] at h
  | cons t ts ih =>
    intro ts2 h
    by_cases hid : t.id = some i
    · simp only [markFirst, if_pos hid, Option.some.injEq] at h
      exact ⟨{ t with done := some true }, by simp [← h], hid, rfl⟩
    · simp only [markFirst, if_neg hid, Option.map_eq_some'] at h
      obtain ⟨ts3, h3, rfl⟩ := h
      obtain ⟨u, hu, hui, hud⟩ := ih ts3 h3
      exact ⟨u, by simp [hu], hui, hud⟩

/-! ## The id-assignment rule -/

theorem maxDefault_eq_foldl {l : List Int} (h : ∀ x ∈ l, 0 ≤ x) :
    maxDefault l 0 = l.foldl max 0 := by
  cases l with
  | nil => rfl
  | cons x xs =>
    have hx : 0 ≤ x := h x (by simp)
    simp only [maxDefault, List.foldl_cons, max_eq_right hx]

theorem foldl_max_getD_eq_filterMap (ts : List Task) :
    ∀ a : Int, 0 ≤ a →
      (ts.map (fun t => t.id.getD 0)).foldl max a
        = (ts.filterMap Task.id).foldl max a := by
  induction ts with
  | nil => intro a _; rfl
  | cons t ts ih =>
    intro a ha
    cases hid : t.id with
    | none =>
      simp only [List.map_cons, List.filterMap_cons, hid, Option.getD_none,
        List.foldl_cons, max_eq_left ha]
      exact ih a ha
    | some n =>
      simp only [List.map_cons, List.filterMap_cons, hid, Option.getD_some,
        List.foldl_cons]
      exact ih (max a n) (le_trans ha (le_max_left a n))

theorem map_getD_eq_filterMap (ts : List Task) (h : ∀ t ∈ ts, t.id ≠ none) :
    ts.map (fun t => t.id.getD 0) = ts.filterMap Task.id := by
  induction ts with
  | nil => rfl
  | cons t ts ih =>
    cases hid : t.id with
    | none => exact absurd hid (h t (by simp))
    | some n =>
      simp only [List.map_cons, List.filterMap_cons, hid, Option.getD_some]
      exact congrArg (n :: ·) (ih fun u hu => h u (by simp [hu]))

/-- With all ids present, the id the code assigns follows the spec's rule
literally: the maximum of the ids that exist, or `0` when there are none,
plus one. -/
theorem nextId_all_present (ts : List Task) (h : ∀ t ∈ ts, t.id ≠ none) :
    nextId ts = maxDefault (ts.filterMap Task.id) 0 + 1 := by
  unfold nextId
  rw [map_getD_eq_filterMap ts h]

/-- With some ids missing but all present ids nonnegative, the assigned id is
still the maximum of the present ids (or `0` if none) plus one: the missing
ids only inject `0`s, which cannot raise the maximum. -/
theorem nextId_missing_ids (ts : List Task)
    (hpos : ∀ t ∈ ts, ∀ n, t.id = some n → 0 ≤ n) :
    nextId ts = maxDefault (ts.filterMap Task.id) 0 + 1 := by
  unfold nextId
  have h1 : ∀ x ∈ ts.map (fun t => t.id.getD 0), 0 ≤ x := by
    intro x hx
    obtain ⟨t, ht, rfl⟩ := List.mem_map.mp hx
    cases hid : t.id with
    | none => simp
    | some n => simpa [hid] using hpos t ht n hid
  have h2 : ∀ x ∈ ts.filterMap Task.id, 0 ≤ x := by
    intro x hx
    obtain ⟨t, ht, hid⟩ := List.mem_filterMap.mp hx
    exact hpos t ht x hid
  rw [maxDefault_eq_foldl h1, maxDefault_eq_foldl h2,
    foldl_max_getD_eq_filterMap ts 0 le_rfl]

theorem oneTo_succ (m : Nat) : oneTo (m + 1) = oneTo m ++ [(m : Int) + 1] := by
  simp [oneTo, List.range_succ]

theorem foldl_max_oneTo (m : Nat) : (oneTo m).foldl max 0 = m := by
  induction m with
  | zero => rfl
  | succ m ih =>
    rw [oneTo_succ, List.foldl_append, ih]
    simp only [List.foldl_cons, List.foldl_nil]
    rw [max_eq_right (by exact_mod_cast Nat.le_succ m)]
    push_cast
    ring

theorem nextId_oneTo {ts : List Task} {m : Nat}
    (h : ts.map Task.id = (oneTo m).map some) :
    nextId ts = (m : Int) + 1 := by
  unfold nextId
  have h2 : ts.map (fun t => t.id.getD 0) = oneTo m := by
    have h3 := congrArg (List.map (fun o : Option Int => o.getD 0)) h
    rw [List.map_map, List.map_map] at h3
    simpa [Function.comp_def] using h3
  have h4 : ∀ x ∈ oneTo m, (0 : Int) ≤ x := by
    intro x hx
    obtain ⟨k, _, rfl⟩ := List.mem_map.mp hx
    show (0 : Int) ≤ (k : Int) + 1
    omega
  rw [h2, maxDefault_eq_foldl h4, foldl_max_oneTo]

/-! ## Unfolding the operations -/

theorem add_task_of_writable {wd : World} {path : String} (title desc now : String)
    (hW : wd.writable path = true) :
    add_task title desc now path wd
      = .ok (wd.store path
               (load_tasks wd path ++ [newTask (load_tasks wd path) title desc now]),
             [addedMsg (nextId (load_tasks wd path)) title]) := by
  dsimp only [add_task]
  rw [save_tasks_of_writable _ hW]
  rfl

theorem add_task_of_unwritable {wd : World} {path : String} (title desc now : String)
    (hW : wd.writable path = false) :
    add_task title desc now path wd = .error ("cannot open for writing: " ++ path) := by
  dsimp only [add_task]
  rw [save_tasks_of_unwritable _ hW]
  rfl

theorem complete_task_of_markFirst {wd : World} {path : String} {i : Int}
    {ts2 : List Task} (hm : markFirst i (load_tasks wd path) = some ts2)
    (hW : wd.writable path = true) :
    complete_task i path wd = .ok (wd.store path ts2, [completeMsg i]) := by
  dsimp only [complete_task]
  rw [hm]
  dsimp only
  rw [save_tasks_of_writable _ hW]
  rfl

theorem complete_task_of_none {wd : World} {path : String} {i : Int}
    (hm : markFirst i (load_tasks wd path) = none) :
    complete_task i path wd = .ok (wd, [notFoundMsg i]) := by
  dsimp only [complete_task]
  rw [hm]

/-! ## C3: save then load is the identity -/

/-- C3: for every collection — including one whose titles or descriptions
contain non-ASCII text, which the string fields carry verbatim — saving to a
location and then loading from the same location yields a collection equal in
content and order to the one saved. -/
theorem save_then_load_roundtrip (ts : List Task) (path : String) (wd : World)
    (hW : wd.writable path = true) :
    ∃ wd', save_tasks ts path wd = .ok wd' ∧ load_tasks wd' path = ts :=
  ⟨wd.store path ts, save_tasks_of_writable ts hW, load_store wd path ts⟩

theorem save_then_load_roundtrip_witness :
    demoWorld.writable "tasks.json" = true ∧
    ∃ wd', save_tasks demoTasks "tasks.json" demoWorld = .ok wd' ∧
      load_tasks wd' "tasks.json" = demoTasks :=
  ⟨rfl, save_then_load_roundtrip demoTasks "tasks.json" demoWorld rfl⟩

/-! ## C6: load never fails -/

/-- C6: `load_tasks` never fails: a missing location yields the empty
collection; an existing location whose contents fail to parse as the expected
structured format also yields the empty collection; and when parsing
succeeds, the decoded collection is returned exactly as stored. -/
theorem load_never_fails (wd : World) (path : String) :
    (wd.file path = none → load_tasks wd path = []) ∧
    (wd.file path = some .malformed → load_tasks wd path = []) ∧
    (∀ j ts, wd.file path = some (.doc j) → decodeTasks j = some ts →
      load_tasks wd path = ts) :=
  ⟨fun h => by simp [load_tasks, h],
   fun h => by simp [load_tasks, h],
   fun j ts h hj => by simp [load_tasks, h, hj]⟩

theorem load_never_fails_witness :
    load_tasks demoWorld "tasks.json" = [] ∧
    load_tasks corruptWorld "tasks.json" = [] ∧
    load_tasks storedWorld "tasks.json" = demoTasks :=
  ⟨(load_never_fails demoWorld "tasks.json").1 rfl,
   (load_never_fails corruptWorld "tasks.json").2.1 rfl,
   (load_never_fails storedWorld "tasks.json").2.2 (encodeTasks demoTasks) demoTasks
     rfl (decodeTasks_encodeTasks demoTasks)⟩

/-! ## C7: save failures propagate; a writable save overwrites -/

/-- C7: if the destination is not writable, `save_tasks` fails and the
failure propagates through its caller `add_task` (it is not swallowed, unlike
`load_tasks`, which is total); if it is writable, `save_tasks` replaces
whatever the destination held with the full collection, touching no other
path. -/
theorem save_failure_propagates (ts : List Task) (path : String) (wd : World) :
    (wd.writable path = false →
      save_tasks ts path wd = .error ("cannot open for writing: " ++ path) ∧
      ∀ title desc now, add_task title desc now path wd
        = .error ("cannot open for writing: " ++ path)) ∧
    (wd.writable path = true →
      ∃ wd', save_tasks ts path wd = .ok wd' ∧
        wd'.file path = some (.doc (encodeTasks ts)) ∧
        ∀ q, q ≠ path → wd'.file q = wd.file q) :=
  ⟨fun h => ⟨save_tasks_of_unwritable ts h,
     fun title desc now => add_task_of_unwritable title desc now h⟩,
   fun h => ⟨wd.store path ts, save_tasks_of_writable ts h,
     store_file_same wd path ts, fun _ hq => store_file_other wd path ts hq⟩⟩

theorem save_failure_propagates_witness :
    lockedWorld.writable "tasks.json" = false ∧
    save_tasks demoTasks "tasks.json" lockedWorld
      = .error ("cannot open for writing: " ++ "tasks.json") ∧
    demoWorld.writable "tasks.json" = true ∧
    ∃ wd', save_tasks demoTasks "tasks.json" demoWorld = .ok wd' ∧
      wd'.file "tasks.json" = some (.doc (encodeTasks demoTasks)) ∧
      ∀ q, q ≠ "tasks.json" → wd'.file q = demoWorld.file q :=
  ⟨rfl,
   ((save_failure_propagates demoTasks "tasks.json" lockedWorld).1 rfl).1,
   rfl,
   (save_failure_propagates demoTasks "tasks.json" demoWorld).2 rfl⟩

/-! ## C4: complete on an absent id is a no-op -/

/-- C4: when no stored task has the requested id, `complete_task` reports the
not-found outcome carrying that id and returns the world unchanged: nothing
is saved, so the stored collection is untouched. -/
theorem complete_missing_id_is_noop (wd : World) (path : String) (i : Int)
    (h : ∀ t ∈ load_tasks wd path, t.id ≠ some i) :
    complete_task i path wd = .ok (wd, [notFoundMsg i]) :=
  complete_task_of_none ((markFirst_eq_none_iff i _).mpr h)

theorem complete_missing_id_is_noop_witness :
    (∀ t ∈ load_tasks storedWorld "tasks.json", t.id ≠ some 999) ∧
    complete_task 999 "tasks.json" storedWorld
      = .ok (storedWorld, [notFoundMsg 999]) :=
  ⟨by decide, complete_missing_id_is_noop storedWorld "tasks.json" 999 (by decide)⟩

/-! ## C1: complete matches by integer value equality -/

/-- C1: the scan of `complete_task` matches a task exactly when the task's
`id` equals the requested id as an integer value; whenever the stored
collection contains a task with the requested id — whatever its magnitude —
completing succeeds, reports success, and the stored collection afterwards
holds a task with that id marked done. -/
theorem complete_matches_by_value_equality (wd : World) (path : String) (i : Int)
    (hW : wd.writable path = true) :
    ((markFirst i (load_tasks wd path)).isSome
        ↔ ∃ t ∈ load_tasks wd path, t.id = some i) ∧
    ((∃ t ∈ load_tasks wd path, t.id = some i) →
      ∃ wd', complete_task i path wd = .ok (wd', [completeMsg i]) ∧
        ∃ u ∈ load_tasks wd' path, u.id = some i ∧ u.done = some true) := by
  refine ⟨markFirst_isSome_iff i _, fun hex => ?_⟩
  obtain ⟨ts2, hm⟩ :=
    Option.isSome_iff_exists.mp ((markFirst_isSome_iff i _).mpr hex)
  refine ⟨wd.store path ts2, complete_task_of_markFirst hm hW, ?_⟩
  rw [load_store]
  exact markFirst_mem_done i _ ts2 hm

theorem complete_matches_by_value_equality_witness :
    bigIdWorld.writable "tasks.json" = true ∧
    (∃ t ∈ load_tasks bigIdWorld "tasks.json", t.id = some 300) ∧
    (((markFirst 300 (load_tasks bigIdWorld "tasks.json")).isSome
        ↔ ∃ t ∈ load_tasks bigIdWorld "tasks.json", t.id = some 300) ∧
      ((∃ t ∈ load_tasks bigIdWorld "tasks.json", t.id = some 300) →
        ∃ wd', complete_task 300 "tasks.json" bigIdWorld
            = .ok (wd', [completeMsg 300]) ∧
          ∃ u ∈ load_tasks wd' "tasks.json", u.id = some 300 ∧
            u.done = some true)) :=
  ⟨rfl, by decide,
   complete_matches_by_value_equality bigIdWorld "tasks.json" 300 rfl⟩

/-! ## C5: complete updates exactly the first match and is idempotent -/

/-- C5: when the stored collection splits as `pre ++ t :: post` with `t` the
first task carrying the requested id, completing sets only `t.done` to true —
every other task, before or after (including any duplicate of the id in
`post`), and every other field of `t`, is unchanged — and running complete
again on the same id is a no-op on the stored collection that still reports
success. -/
theorem complete_first_match_only (wd : World) (path : String) (i : Int)
    (pre post : List Task) (t : Task)
    (hload : load_tasks wd path = pre ++ t :: post)
    (hpre : ∀ u ∈ pre, u.id ≠ some i) (ht : t.id = some i)
    (hW : wd.writable path = true) :
    ∃ wd', complete_task i path wd = .ok (wd', [completeMsg i]) ∧
      load_tasks wd' path = pre ++ { t with done := some true } :: post ∧
      ∃ wd'', complete_task i path wd' = .ok (wd'', [completeMsg i]) ∧
        load_tasks wd'' path = pre ++ { t with done := some true } :: post := by
  have hm : markFirst i (load_tasks wd path)
      = some (pre ++ { t with done := some true } :: post) := by
    rw [hload]
    exact markFirst_append i pre t post hpre ht
  refine ⟨wd.store path (pre ++ { t with done := some true } :: post),
    complete_task_of_markFirst hm hW, load_store wd path _, ?_⟩
  have hW' : (wd.store path (pre ++ { t with done := some true } :: post)).writable
      path = true := by
    rw [store_writable]; exact hW
  have hm' : markFirst i
      (load_tasks (wd.store path (pre ++ { t with done := some true } :: post)) path)
      = some (pre ++ { t with done := some true } :: post) := by
    rw [load_store]
    exact markFirst_append i pre { t with done := some true } post hpre ht
  exact ⟨_, complete_task_of_markFirst hm' hW', load_store _ path _⟩

theorem complete_first_match_only_witness :
    (load_tasks dupWorld "tasks.json" = [dupA] ++ dupB :: [dupC]) ∧
    (∀ u ∈ [dupA], u.id ≠ some 2) ∧ dupB.id = some 2 ∧
    ∃ wd', complete_task 2 "tasks.json" dupWorld = .ok (wd', [completeMsg 2]) ∧
      load_tasks wd' "tasks.json"
        = [dupA] ++ { dupB with done := some true } :: [dupC] ∧
      ∃ wd'', complete_task 2 "tasks.json" wd' = .ok (wd'', [completeMsg 2]) ∧
        load_tasks wd'' "tasks.json"
          = [dupA] ++ { dupB with done := some true } :: [dupC] :=
  ⟨by decide, by decide, by decide,
   complete_first_match_only dupWorld "tasks.json" 2 [dupA] [dupC] dupB
     (by decide) (by decide) (by decide) rfl⟩

/-! ## C8: what add does -/

/-- C8: `add_task` loads the current collection, builds a task whose id
follows the max-plus-one rule, whose `done` is false and whose `created_at`
is the current UTC clock reading with a trailing `Z`, appends it at the end
leaving every prior task unchanged and in order, saves the result, and
reports the created task's id and title. -/
theorem add_appends_and_reports (title desc now path : String) (wd : World)
    (hW : wd.writable path = true) :
    ∃ wd', add_task title desc now path wd
        = .ok (wd', [addedMsg (nextId (load_tasks wd path)) title]) ∧
      load_tasks wd' path = load_tasks wd path ++
        [{ id := some (nextId (load_tasks wd path)), title := some title,
           description := some desc, created_at := some (now ++ "Z"),
           done := some false }] :=
  ⟨wd.store path (load_tasks wd path
      ++ [newTask (load_tasks wd path) title desc now]),
   add_task_of_writable title desc now hW,
   by rw [load_store]; rfl⟩

theorem add_appends_and_reports_witness :
    storedWorld.writable "tasks.json" = true ∧
    ∃ wd', add_task "Write tests" "Unit tests" "2026-02-09T12:00:00"
          "tasks.json" storedWorld
        = .ok (wd', [addedMsg (nextId (load_tasks storedWorld "tasks.json"))
             "Write tests"]) ∧
      load_tasks wd' "tasks.json" = load_tasks storedWorld "tasks.json" ++
        [{ id := some (nextId (load_tasks storedWorld "tasks.json")),
           title := some "Write tests", description := some "Unit tests",
           created_at := some ("2026-02-09T12:00:00" ++ "Z"),
           done := some false }] :=
  ⟨rfl, add_appends_and_reports "Write tests" "Unit tests" "2026-02-09T12:00:00"
    "tasks.json" storedWorld rfl⟩

/-! ## C9: list is read-only and renders one line per task -/

theorem renderTask_ne_noTasksMsg (t : Task) : renderTask t ≠ noTasksMsg := by
  intro h
  have h2 := congrArg String.data h
  simp only [renderTask, renderHead, noTasksMsg, String.data_append] at h2
  simp at h2

/-- C9: `list_tasks` never mutates the world (no save); an empty collection
produces the dedicated no-tasks message, which no task line can equal; a
non-empty collection produces exactly one line per task in collection order;
the completion marker distinguishes done from not-done with distinct glyphs;
and each line carries the id, the title and the description, an empty
description appearing as an empty trailing field after the separator rather
than being omitted. -/
theorem list_readonly_rendering (wd : World) (path : String) :
    ((list_tasks wd path).1 = wd) ∧
    (load_tasks wd path = [] → (list_tasks wd path).2 = [noTasksMsg]) ∧
    (load_tasks wd path ≠ [] →
      (list_tasks wd path).2 = (load_tasks wd path).map renderTask) ∧
    (∀ t, renderTask t ≠ noTasksMsg) ∧
    (∀ t, t.done = some true → statusMark t = "✓") ∧
    (∀ t, t.done ≠ some true → statusMark t = " ") ∧
    (("✓" : String) ≠ " ") ∧
    (∀ t, renderTask t
      = "[" ++ statusMark t ++ "] " ++ reprOptInt t.id ++ ": "
        ++ reprOptStr t.title ++ " - " ++ t.description.getD "") ∧
    (∀ t, t.description.getD "" = "" →
      renderTask t
        = "[" ++ statusMark t ++ "] " ++ reprOptInt t.id ++ ": "
          ++ reprOptStr t.title ++ " - ") := by
  refine ⟨?_, ?_, ?_, renderTask_ne_noTasksMsg, ?_, ?_, by decide, ?_, ?_⟩
  · by_cases h : (load_tasks wd path).isEmpty <;> simp [list_tasks, h]
  · intro h; simp [list_tasks, h]
  · intro h
    have : ¬ (load_tasks wd path).isEmpty := by
      simpa [List.isEmpty_iff] using h
    simp [list_tasks, this]
  · intro t ht; simp [statusMark, ht]
  · intro t ht
    have : t.done.getD false = false := by
      cases h : t.done with
      | none => rfl
      | some b => cases b with
        | false => rfl
        | true => exact absurd h ht
    simp [statusMark, this]
  · intro t; simp [renderTask, renderHead, String.append_assoc]
  · intro t ht
    simp [renderTask, renderHead, ht, String.append_empty, String.append_assoc]

theorem list_readonly_rendering_witness :
    (load_tasks listWorld "tasks.json" ≠ []) ∧
    ((list_tasks listWorld "tasks.json").1 = listWorld ∧
      (load_tasks listWorld "tasks.json" = [] →
        (list_tasks listWorld "tasks.json").2 = [noTasksMsg]) ∧
      (load_tasks listWorld "tasks.json" ≠ [] →
        (list_tasks listWorld "tasks.json").2
          = (load_tasks listWorld "tasks.json").map renderTask) ∧
      (∀ t, renderTask t ≠ noTasksMsg) ∧
      (∀ t, t.done = some true → statusMark t = "✓") ∧
      (∀ t, t.done ≠ some true → statusMark t = " ") ∧
      (("✓" : String) ≠ " ") ∧
      (∀ t, renderTask t
        = "[" ++ statusMark t ++ "] " ++ reprOptInt t.id ++ ": "
          ++ reprOptStr t.title ++ " - " ++ t.description.getD "") ∧
      (∀ t, t.description.getD "" = "" →
        renderTask t
          = "[" ++ statusMark t ++ "] " ++ reprOptInt t.id ++ ": "
            ++ reprOptStr t.title ++ " - ")) :=
  ⟨by decide, list_readonly_rendering listWorld "tasks.json"⟩

/-! ## C2: ids are assigned sequentially -/

theorem runAdds_ids {path : String} :
    ∀ (args : List (String × String × String)) (wd : World) (m : Nat),
      wd.writable path = true →
      (load_tasks wd path).map Task.id = (oneTo m).map some →
      ∃ wd', runAdds args path wd = .ok wd' ∧
        (load_tasks wd' path).map Task.id = (oneTo (m + args.length)).map some := by
  intro args
  induction args with
  | nil =>
    intro wd m hW h
    exact ⟨wd, rfl, by simpa using h⟩
  | cons a args ih =>
    intro wd m hW h
    obtain ⟨t, d, n⟩ := a
    have hstep := add_task_of_writable t d n hW
    have hid : nextId (load_tasks wd path) = (m : Int) + 1 := nextId_oneTo h
    have hw' : (wd.store path (load_tasks wd path
        ++ [newTask (load_tasks wd path) t d n])).writable path = true := by
      rw [store_writable]; exact hW
    have hids' : (load_tasks (wd.store path (load_tasks wd path
          ++ [newTask (load_tasks wd path) t d n])) path).map Task.id
        = (oneTo (m + 1)).map some := by
      rw [load_store, List.map_append, h, oneTo_succ, List.map_append]
      simp [newTask, hid]
    obtain ⟨wd', hrun, hfin⟩ := ih _ (m + 1) hw' hids'
    refine ⟨wd', ?_, ?_⟩
    · show runAdds ((t, d, n) :: args) path wd = .ok wd'
      dsimp only [runAdds]
      rw [hstep]
      exact hrun
    · have hlen : m + ((t, d, n) :: args).length = m + 1 + args.length := by
        simp [List.length_cons]; omega
      rw [hlen]
      exact hfin

/-- C2: starting from an empty store, a sequence of adds — whatever the
titles, descriptions and clock readings supplied — assigns the ids
1, 2, 3, … in order; and on any collection whose tasks all carry ids, the
id the next add assigns is the maximum existing id (or 0 if the collection
is empty) plus one, gaps included. -/
theorem add_assigns_sequential_ids :
    (∀ ts : List Task, (∀ t ∈ ts, t.id ≠ none) →
      nextId ts = maxDefault (ts.filterMap Task.id) 0 + 1) ∧
    (∀ (args : List (String × String × String)) (path : String) (wd : World),
      wd.file path = none → wd.writable path = true →
      ∃ wd', runAdds args path wd = .ok wd' ∧
        (load_tasks wd' path).map Task.id = (oneTo args.length).map some) := by
  refine ⟨nextId_all_present, fun args path wd h0 hW => ?_⟩
  have h : (load_tasks wd path).map Task.id = (oneTo 0).map some := by
    simp [load_tasks, h0, oneTo]
  obtain ⟨wd', hrun, hids⟩ := runAdds_ids args wd 0 hW h
  exact ⟨wd', hrun, by simpa using hids⟩

theorem add_assigns_sequential_ids_witness :
    ((∀ t ∈ load_tasks storedWorld "tasks.json", t.id ≠ none) ∧
      nextId (load_tasks storedWorld "tasks.json")
        = maxDefault ((load_tasks storedWorld "tasks.json").filterMap Task.id) 0
            + 1) ∧
    (demoWorld.file "tasks.json" = none ∧ demoWorld.writable "tasks.json" = true ∧
      ∃ wd', runAdds [("Buy groceries", "Milk, bread, eggs", "2026-02-09T10:00:00"),
            ("Fix bug", "", "2026-02-09T11:00:00"),
            ("Write tests", "", "2026-02-09T12:00:00")] "tasks.json" demoWorld
          = .ok wd' ∧
        (load_tasks wd' "tasks.json").map Task.id = (oneTo 3).map some) :=
  ⟨⟨by decide,
    add_assigns_sequential_ids.1 (load_tasks storedWorld "tasks.json") (by decide)⟩,
   rfl, rfl,
   add_assigns_sequential_ids.2
     [("Buy groceries", "Milk, bread, eggs", "2026-02-09T10:00:00"),
      ("Fix bug", "", "2026-02-09T11:00:00"),
      ("Write tests", "", "2026-02-09T12:00:00")] "tasks.json" demoWorld rfl rfl⟩

/-! ## C10: add tolerates records lacking an id field -/

/-- C10: records lacking an `id` enter the maximum as 0, so on any collection
whose present ids are nonnegative — the data model makes them positive — the
id assigned next is still the maximum of the ids that are present (or 0 when
none are) plus one, and `add_task` succeeds on such a collection rather than
failing. -/
theorem add_tolerates_missing_ids (wd : World) (path : String)
    (title desc now : String)
    (hpos : ∀ t ∈ load_tasks wd path, ∀ n, t.id = some n → 0 ≤ n)
    (hW : wd.writable path = true) :
    nextId (load_tasks wd path)
      = maxDefault ((load_tasks wd path).filterMap Task.id) 0 + 1 ∧
    ∃ wd', add_task title desc now path wd
        = .ok (wd', [addedMsg (nextId (load_tasks wd path)) title]) :=
  ⟨nextId_missing_ids _ hpos, _, add_task_of_writable title desc now hW⟩

theorem add_tolerates_missing_ids_witness :
    (∀ t ∈ load_tasks gapWorld "tasks.json", ∀ n, t.id = some n → 0 ≤ n) ∧
    (∃ t ∈ load_tasks gapWorld "tasks.json", t.id = none) ∧
    nextId (load_tasks gapWorld "tasks.json") = 4 ∧
    (nextId (load_tasks gapWorld "tasks.json")
        = maxDefault ((load_tasks gapWorld "tasks.json").filterMap Task.id) 0 + 1 ∧
      ∃ wd', add_task "new" "" "2026-02-09T12:00:00" "tasks.json" gapWorld
          = .ok (wd', [addedMsg (nextId (load_tasks gapWorld "tasks.json")) "new"])) :=
  ⟨by decide, by decide, by decide,
   add_tolerates_missing_ids gapWorld "tasks.json" "new" "" "2026-02-09T12:00:00"
     (by decide) rfl⟩

end Todo
